import Mathlib

/-
Shallow embedding of the Flockwave message hub
(src/src/flockwave/server/message_hub.py) and the parts of its data model
needed to settle the frozen claims.  Python dicts keyed by message type are
modelled as association lists, Python exceptions as an `Except` error type,
and trio channel operations as explicit queue-state transformers.
-/

/-- Python-level errors that the embedded code can raise. -/
inductive PyErr
  | wouldBlock
  | assertionError
  | attributeError
  | unboundLocalError
deriving DecidableEq, Repr

/-! ## Handler table (`MessageHub._handlers_by_type`)

The source keeps a `defaultdict(list)` mapping an optional message type
(`None` = wildcard) to the list of handlers registered for it, in
registration order.  We model the dict as an association list so that the
difference between "key absent" and "key present with empty list" is kept:
`unregister_message_handler` uses `dict.get`, which distinguishes the two. -/

abbrev HandlerTable (α : Type) := List (Option String × List α)

/-- `dict.get(key)`: first entry with the given key, if any. -/
def lookupTable {α : Type} : HandlerTable α → Option String → Option (List α)
  | [], _ => none
  | (k, v) :: rest, key => if k = key then some v else lookupTable rest key

/-- `dict.get(key, ())`: the handler list for a key, defaulting to empty. -/
def getHandlers {α : Type} (tbl : HandlerTable α) (key : Option String) : List α :=
  (lookupTable tbl key).getD []

/-- `self._handlers_by_type[key].append(f)` on a `defaultdict(list)`:
appends to the existing list, creating the key if it was absent. -/
def appendAt {α : Type} : HandlerTable α → Option String → α → HandlerTable α
  | [], key, f => [(key, [f])]
  | (k, v) :: rest, key, f =>
    if k = key then (k, v ++ [f]) :: rest else (k, v) :: appendAt rest key f

/-- The `message_types` argument of `register_message_handler` /
`unregister_message_handler`: `None`, a single string, or an iterable of
(optional) type names. -/
inductive MessageTypesArg
  | null
  | single (s : String)
  | iter (ks : List (Option String))
deriving DecidableEq, Repr

/-- The normalization at the top of `register_message_handler`:
`None` or a single string becomes a one-element list. -/
def normalizeTypes : MessageTypesArg → List (Option String)
  | .null => [none]
  | .single s => [some s]
  | .iter ks => ks

/-- `MessageHub.register_message_handler`: appends the handler to the list
of every named message type. -/
def registerMessageHandler {α : Type} (tbl : HandlerTable α) (f : α)
    (arg : MessageTypesArg) : HandlerTable α :=
  (normalizeTypes arg).foldl (fun t k => appendAt t k f) tbl

/-- Python `list.remove(x)` with the surrounding `except ValueError: pass`:
removes the first occurrence, leaves the list unchanged when absent. -/
def removeFirst {α : Type} [DecidableEq α] (f : α) : List α → List α
  | [] => []
  | x :: l => if x = f then l else x :: removeFirst f l

/-- Removal of the first occurrence of `f` from the list stored at `key`
(no-op when the key is absent). -/
def eraseAt {α : Type} [DecidableEq α] :
    HandlerTable α → Option String → α → HandlerTable α
  | [], _, _ => []
  | (k, v) :: rest, key, f =>
    if k = key then (k, removeFirst f v) :: rest else (k, v) :: eraseAt rest key f

/-- The loop body of `unregister_message_handler`:
`handlers = self._handlers_by_type.get(message_type)` followed by
`handlers.remove(func)` under `except ValueError`.  When the key is absent,
`handlers` is `None` and `None.remove` raises `AttributeError`, which the
`except ValueError` clause does not catch. -/
def unregisterFold {α : Type} [DecidableEq α] (f : α) :
    List (Option String) → HandlerTable α → Except PyErr (HandlerTable α)
  | [], tbl => .ok tbl
  | k :: ks, tbl =>
    match lookupTable tbl k with
    | none => .error .attributeError
    | some _ => unregisterFold f ks (eraseAt tbl k f)

/-- `MessageHub.unregister_message_handler`. -/
def unregisterMessageHandler {α : Type} [DecidableEq α] (tbl : HandlerTable α)
    (f : α) (arg : MessageTypesArg) : Except PyErr (HandlerTable α) :=
  unregisterFold f (normalizeTypes arg) tbl

/-- The iteration order used by `_feed_message_to_handlers`:
`chain(self._handlers_by_type.get(message_type, ()), self._handlers_by_type[None])`. -/
def handlersForType {α : Type} (tbl : HandlerTable α) (t : String) : List α :=
  getHandlers tbl (some t) ++ getHandlers tbl none

/-- Concatenation of the images of `f` (used to state claim-side orders). -/
def concatMap {α β : Type} (f : α → List β) : List α → List β
  | [] => []
  | a :: l => f a ++ concatMap f l

/-- The flattened sequence of `(type key, handler)` registration events
produced by a sequence of `register_message_handler` calls. -/
def expandRegs {α : Type} (regs : List (α × MessageTypesArg)) :
    List (Option String × α) :=
  concatMap (fun p => (normalizeTypes p.2).map (fun k => (k, p.1))) regs

/-- The handler table obtained by a sequence of registrations on a fresh hub. -/
def tableOfRegs {α : Type} (regs : List (α × MessageTypesArg)) : HandlerTable α :=
  regs.foldl (fun t p => registerMessageHandler t p.1 p.2) []

/-- Claim-side order: handlers registered under `T` in registration order,
followed by all wildcard handlers in registration order. -/
def claimedOrder {α : Type} (regs : List (α × MessageTypesArg)) (T : String) :
    List α :=
  ((expandRegs regs).filter (fun q => decide (q.1 = some T))).map (fun q => q.2)
    ++ ((expandRegs regs).filter (fun q => decide (q.1 = none))).map (fun q => q.2)

theorem getHandlers_appendAt {α : Type} (tbl : HandlerTable α)
    (k key : Option String) (f : α) :
    getHandlers (appendAt tbl k f) key
      = getHandlers tbl key ++ (if k = key then [f] else []) := by
  induction tbl with
  | nil =>
    by_cases h : k = key <;>
      simp [appendAt, getHandlers, lookupTable, h]
  | cons p rest ih =>
    obtain ⟨k1, v1⟩ := p
    by_cases h1 : k1 = k
    · subst h1
      by_cases h2 : k1 = key <;>
        simp [appendAt, getHandlers, lookupTable, h2]
    · by_cases h2 : k1 = key
      · subst h2
        have hk : ¬k = k1 := fun h => h1 h.symm
        simp [appendAt, getHandlers, lookupTable, h1, hk]
      · simp only [appendAt, if_neg h1, getHandlers, lookupTable, if_neg h2]
        exact ih

theorem getHandlers_registerFold {α : Type} (ks : List (Option String)) (f : α)
    (tbl : HandlerTable α) (key : Option String) :
    getHandlers (ks.foldl (fun t k => appendAt t k f) tbl) key
      = getHandlers tbl key
          ++ (ks.filter (fun k => decide (k = key))).map (fun _ => f) := by
  induction ks generalizing tbl with
  | nil => simp
  | cons k ks ih =>
    by_cases h : k = key <;>
      simp [List.foldl_cons, ih, getHandlers_appendAt, h]

theorem filter_map_pair {α : Type} (ks : List (Option String)) (f : α)
    (key : Option String) :
    (((ks.map (fun k => (k, f))).filter (fun q => decide (q.1 = key))).map
        (fun q => q.2))
      = (ks.filter (fun k => decide (k = key))).map (fun _ => f) := by
  induction ks with
  | nil => simp
  | cons k ks ih =>
    by_cases h : k = key <;> simp [h, ih]

theorem getHandlers_tableOfRegs {α : Type} (regs : List (α × MessageTypesArg))
    (key : Option String) :
    getHandlers (tableOfRegs regs) key
      = ((expandRegs regs).filter (fun q => decide (q.1 = key))).map
          (fun q => q.2) := by
  suffices h : ∀ tbl : HandlerTable α,
      getHandlers (regs.foldl (fun t p => registerMessageHandler t p.1 p.2) tbl) key
        = getHandlers tbl key
            ++ ((expandRegs regs).filter (fun q => decide (q.1 = key))).map
                (fun q => q.2) by
    have := h []
    simpa [tableOfRegs, getHandlers, lookupTable] using this
  induction regs with
  | nil => intro tbl; simp [expandRegs, concatMap]
  | cons p regs ih =>
    intro tbl
    have step :
        getHandlers (registerMessageHandler tbl p.1 p.2) key
          = getHandlers tbl key
              ++ ((normalizeTypes p.2).filter (fun k => decide (k = key))).map
                  (fun _ => p.1) :=
      getHandlers_registerFold (normalizeTypes p.2) p.1 tbl key
    simp [List.foldl_cons, ih, step, expandRegs, concatMap, List.filter_append,
      List.map_append, filter_map_pair, List.append_assoc]

/-- C2: for every validated incoming message of type `T`, the handlers that
`_feed_message_to_handlers` iterates over are exactly the handlers registered
under `T`, in registration order, followed by the wildcard (`None`) handlers,
in registration order: every specific handler comes before every wildcard
handler. -/
theorem handler_iteration_order {α : Type} (regs : List (α × MessageTypesArg))
    (T : String) :
    handlersForType (tableOfRegs regs) T = claimedOrder regs T := by
  simp [handlersForType, claimedOrder, getHandlers_tableOfRegs]

theorem removeFirst_not_mem {α : Type} [DecidableEq α] (f : α) (l : List α)
    (h : f ∉ l) : removeFirst f l = l := by
  induction l with
  | nil => rfl
  | cons x l ih =>
    have hx : ¬x = f := fun hxf => h (by simp [hxf])
    have hl : f ∉ l := fun hm => h (List.mem_cons_of_mem _ hm)
    simp [removeFirst, hx, ih hl]

theorem getHandlers_eraseAt {α : Type} [DecidableEq α] (tbl : HandlerTable α)
    (k key : Option String) (f : α) :
    getHandlers (eraseAt tbl k f) key
      = if k = key then removeFirst f (getHandlers tbl key)
        else getHandlers tbl key := by
  induction tbl with
  | nil =>
    by_cases h : k = key <;> simp [eraseAt, getHandlers, lookupTable, h, removeFirst]
  | cons p rest ih =>
    obtain ⟨k1, v1⟩ := p
    by_cases h1 : k1 = k
    · subst h1
      by_cases h2 : k1 = key <;>
        simp [eraseAt, getHandlers, lookupTable, h2]
    · by_cases h2 : k1 = key
      · subst h2
        have hk : ¬k = k1 := fun h => h1 h.symm
        simp [eraseAt, getHandlers, lookupTable, h1, hk]
      · simp only [eraseAt, if_neg h1, getHandlers, lookupTable, if_neg h2]
        exact ih

theorem lookupTable_eraseAt_isSome {α : Type} [DecidableEq α]
    (tbl : HandlerTable α) (k key : Option String) (f : α) :
    (lookupTable (eraseAt tbl k f) key).isSome
      = (lookupTable tbl key).isSome := by
  induction tbl with
  | nil => rfl
  | cons p rest ih =>
    obtain ⟨k1, v1⟩ := p
    by_cases h1 : k1 = k
    · subst h1
      by_cases h2 : k1 = key <;> simp [eraseAt, lookupTable, h2]
    · by_cases h2 : k1 = key
      · subst h2
        simp [eraseAt, lookupTable, h1]
      · simp [eraseAt, lookupTable, h1, h2, ih]

theorem unregisterFold_ok {α : Type} [DecidableEq α] (f : α) :
    ∀ (ks : List (Option String)) (tbl : HandlerTable α),
      ks.Nodup → (∀ k ∈ ks, (lookupTable tbl k).isSome = true) →
      ∃ tbl2, unregisterFold f ks tbl = .ok tbl2 ∧
        ∀ key, getHandlers tbl2 key =
          if key ∈ ks then removeFirst f (getHandlers tbl key)
          else getHandlers tbl key := by
  intro ks
  induction ks with
  | nil =>
    intro tbl _ _
    exact ⟨tbl, rfl, fun key => by simp⟩
  | cons k ks ih =>
    intro tbl hnd hp
    have hk : (lookupTable tbl k).isSome = true := hp k (by simp)
    obtain ⟨l, hl⟩ := Option.isSome_iff_exists.mp hk
    have hknotin : k ∉ ks := (List.nodup_cons.mp hnd).1
    have hp2 : ∀ k2 ∈ ks, (lookupTable (eraseAt tbl k f) k2).isSome = true := by
      intro k2 hk2
      rw [lookupTable_eraseAt_isSome]
      exact hp k2 (List.mem_cons_of_mem _ hk2)
    obtain ⟨tbl2, heq, hchar⟩ := ih (eraseAt tbl k f) (List.nodup_cons.mp hnd).2 hp2
    refine ⟨tbl2, ?_, ?_⟩
    · simp [unregisterFold, hl, heq]
    · intro key
      by_cases hmem : key ∈ ks
      · have hkk : ¬k = key := fun h => hknotin (h ▸ hmem)
        simp [hchar key, hmem, getHandlers_eraseAt, hkk]
      · by_cases hkey : key = k
        · subst hkey
          simp [hchar key, hmem, getHandlers_eraseAt]
        · have hkk : ¬k = key := fun h => hkey h.symm
          simp [hchar key, hmem, getHandlers_eraseAt, hkk, hkey]

/-- C8 counterexample: unregistering a handler from a message type that has
never had any handler registered raises `AttributeError` (`dict.get` returns
`None` and `None.remove` fails; the `except ValueError` clause does not
catch it), instead of completing silently as the claim states. -/
theorem unregister_unknown_type_raises :
    unregisterMessageHandler ([] : HandlerTable Nat) 0 (.single "FOO")
      = .error .attributeError := rfl

/-- C8 (amended): when every named message type has an entry in the handler
table (i.e. some handler was registered under it at some point), and the
named types are distinct, `unregister_message_handler` completes without
raising, removes the first occurrence of the handler from each named list,
leaves lists where the handler is absent unchanged, and leaves every other
type's list untouched. -/
theorem unregister_removes_first_occurrence {α : Type} [DecidableEq α]
    (tbl : HandlerTable α) (f : α) (arg : MessageTypesArg)
    (hnd : (normalizeTypes arg).Nodup)
    (hp : ∀ k ∈ normalizeTypes arg, (lookupTable tbl k).isSome = true) :
    ∃ tbl2, unregisterMessageHandler tbl f arg = .ok tbl2 ∧
      (∀ key, getHandlers tbl2 key =
        if key ∈ normalizeTypes arg then removeFirst f (getHandlers tbl key)
        else getHandlers tbl key) ∧
      (∀ key ∈ normalizeTypes arg, f ∉ getHandlers tbl key →
        getHandlers tbl2 key = getHandlers tbl key) := by
  obtain ⟨tbl2, heq, hchar⟩ := unregisterFold_ok f (normalizeTypes arg) tbl hnd hp
  refine ⟨tbl2, heq, fun key => hchar key, ?_⟩
  intro key hmem habs
  simp [hchar key, hmem, removeFirst_not_mem f _ habs]

/-- Witness for C8 (amended) at a concrete table and arguments. -/
theorem unregister_removes_first_occurrence_witness :
    ∃ tbl2,
      unregisterMessageHandler
          ([(some "A", [1, 2, 1]), (none, [3])] : HandlerTable Nat) 1
          (.iter [some "A", none]) = .ok tbl2 ∧
      (∀ key, getHandlers tbl2 key =
        if key ∈ normalizeTypes (.iter [some "A", none]) then
          removeFirst 1 (getHandlers [(some "A", [1, 2, 1]), (none, [3])] key)
        else getHandlers [(some "A", [1, 2, 1]), (none, [3])] key) ∧
      (∀ key ∈ normalizeTypes (.iter [some "A", none]),
        1 ∉ getHandlers [(some "A", [1, 2, 1]), (none, [3])] key →
        getHandlers tbl2 key
          = getHandlers [(some "A", [1, 2, 1]), (none, [3])] key) :=
  unregister_removes_first_occurrence
    [(some "A", [1, 2, 1]), (none, [3])] 1 (.iter [some "A", none])
    (by decide) (by decide)

/-! ## Envelopes, builder and the incoming pipeline

`FlockwaveMessage` / `FlockwaveResponse` and `FlockwaveMessageBuilder` live in
`flockwave.server.model`, outside the provided sources; they are modelled from
the spec (section 4.1 Envelope Builder and section 3 Data Model).  The hub
functions themselves (`acknowledge`, `_send_response`,
`_feed_message_to_handlers`, `handle_incoming_message`) are translated from
`message_hub.py`. -/

/-- Discriminant distinguishing requests, responses and notifications. -/
inductive MessageKind
  | request
  | response
  | notification
deriving DecidableEq, Repr

/-- A response/notification body; the fields the hub itself reads or writes
(`type`, `reason`); other body content does not influence the hub. -/
structure MsgBody where
  type : Option String
  reason : Option String
deriving DecidableEq, Repr

/-- An outbound Flockwave envelope. -/
structure Envelope where
  id : String
  body : MsgBody
  correlationId : Option String
  kind : MessageKind
deriving DecidableEq, Repr

/-- A validated incoming message (`FlockwaveMessage` after
`_decode_incoming_message`): its id, its body as a key/value mapping, and
whether the raw payload carried an `error` key. -/
structure IncomingMessage where
  id : String
  body : List (String × String)
  hasError : Bool
deriving DecidableEq, Repr

/-- Association-list lookup for message bodies. -/
def bodyLookup : List (String × String) → String → Option String
  | [], _ => none
  | (k, v) :: rest, key => if k = key then some v else bodyLookup rest key

/-- `message.body["type"]` (present on every schema-validated message). -/
def IncomingMessage.msgType (m : IncomingMessage) : String :=
  (bodyLookup m.body "type").getD ""

/-- Clients are identified by their stable string id. -/
abbrev Client := String

/-- Modelled from the spec: `FlockwaveMessageBuilder` attaches globally
unique fresh ids to the envelopes it creates; we realize this with a
counter. -/
structure MessageBuilder where
  counter : Nat
deriving DecidableEq, Repr

/-- A fresh identifier and the advanced builder. -/
def MessageBuilder.freshId (b : MessageBuilder) : String × MessageBuilder :=
  ("msg-" ++ toString b.counter, ⟨b.counter + 1⟩)

/-- Modelled from the spec: `create_response_to(request, body)` attaches a
fresh id, sets `correlationId` to the request id, and copies `type` from the
request body when the response body has none. -/
def createResponseTo (b : MessageBuilder) (m : IncomingMessage)
    (body : MsgBody) : Envelope × MessageBuilder :=
  let (i, b2) := b.freshId
  ({ id := i
     body :=
       if body.type = none then { body with type := some m.msgType } else body
     correlationId := some m.id
     kind := .response }, b2)

/-- Modelled from the spec: `create_notification(body)` attaches a fresh id;
notifications carry no correlation id. -/
def createNotification (b : MessageBuilder) (body : MsgBody) :
    Envelope × MessageBuilder :=
  let (i, b2) := b.freshId
  ({ id := i, body := body, correlationId := none, kind := .notification }, b2)

/-- `MessageHub.create_response_or_notification`. -/
def createResponseOrNotification (b : MessageBuilder) (body : MsgBody)
    (inResponseTo : Option IncomingMessage) : Envelope × MessageBuilder :=
  match inResponseTo with
  | none => createNotification b body
  | some m => createResponseTo b m body

/-- Truthiness of the optional `reason` argument in `acknowledge`. -/
def reasonTruthy : Option String → Bool
  | none => false
  | some s => !s.isEmpty

/-- `MessageHub.acknowledge`: builds an `ACK-ACK`/`ACK-NAK` response body and
wraps it as a response to the given message; `reason` is attached only on
negative acknowledgments when it is truthy. -/
def acknowledge (b : MessageBuilder) (m : IncomingMessage) (outcome : Bool)
    (reason : Option String) : Envelope × MessageBuilder :=
  createResponseTo b m
    { type := some (if outcome then "ACK-ACK" else "ACK-NAK")
      reason := if !outcome && reasonTruthy reason then reason else none }

/-- One entry of the hub's outbound queue (`Request` in the source):
the envelope, the recipient (`none` = broadcast) and the id of the message
being responded to. -/
structure QueuedRequest where
  message : Envelope
  recipient : Option Client
  inResponseTo : Option String
deriving DecidableEq, Repr

/-- Pipeline-side hub state: the builder counter and the log of requests the
incoming pipeline has pushed toward the outbound queue. -/
structure PipelineState where
  builder : MessageBuilder
  sent : List QueuedRequest
deriving DecidableEq, Repr

/-- Appending one request to the outbound traffic of the pipeline. -/
def pipelinePush (st : PipelineState) (r : QueuedRequest) : PipelineState :=
  { st with sent := st.sent ++ [r] }

/-- The observable behavior of a message handler for one incoming message:
the value it returns, or the fact that it raises synchronously or raises
from its awaitable. -/
inductive HandlerOutcome
  | retTrue
  | retFalse
  | retNone
  | retBody (body : MsgBody)
  | retResponse (resp : Envelope)
  | raisesSync
  | raisesAsync
deriving DecidableEq, Repr

/-- A registered message handler, observed through what it does when called
with a message and its sender. -/
abbrev Handler := IncomingMessage → Client → HandlerOutcome

/-- `MessageHub._send_response`, parametrized by `builderFails`: the set of
bodies on which `FlockwaveMessageBuilder.create_response_to` raises.  When
the handler returned an already-built response, the hub asserts that its
`correlationId` matches the request.  When the builder raises, the source
logs the failure but then evaluates `await self.send_message(response, ...)`
with the local variable `response` never assigned, raising
`UnboundLocalError`. -/
def sendResponse (builderFails : MsgBody → Bool) (st : PipelineState)
    (msg : Sum MsgBody Envelope) (recipient : Client) (inResponseTo : IncomingMessage) :
    Except PyErr PipelineState :=
  match msg with
  | .inr resp =>
    if resp.correlationId = some inResponseTo.id then
      .ok (pipelinePush st ⟨resp, some recipient, some inResponseTo.id⟩)
    else .error .assertionError
  | .inl body =>
    if builderFails body then .error .unboundLocalError
    else
      let (resp, b2) := createResponseTo st.builder inResponseTo body
      .ok (pipelinePush { st with builder := b2 }
        ⟨resp, some recipient, some inResponseTo.id⟩)

/-- The loop of `MessageHub._feed_message_to_handlers`: each handler is
called in turn; a raising handler is replaced by `None`; `True` marks the
message handled; a dict or response is sent via `_send_response` and marks
the message handled. -/
def feedHandlers (builderFails : MsgBody → Bool) (m : IncomingMessage)
    (sender : Client) :
    List Handler → Bool → PipelineState → Except PyErr (Bool × PipelineState)
  | [], handled, st => .ok (handled, st)
  | h :: rest, handled, st =>
    match h m sender with
    | .retTrue => feedHandlers builderFails m sender rest true st
    | .retFalse => feedHandlers builderFails m sender rest handled st
    | .retNone => feedHandlers builderFails m sender rest handled st
    | .raisesSync => feedHandlers builderFails m sender rest handled st
    | .raisesAsync => feedHandlers builderFails m sender rest handled st
    | .retBody body =>
      match sendResponse builderFails st (.inl body) sender m with
      | .error e => .error e
      | .ok st2 => feedHandlers builderFails m sender rest true st2
    | .retResponse resp =>
      match sendResponse builderFails st (.inr resp) sender m with
      | .error e => .error e
      | .ok st2 => feedHandlers builderFails m sender rest true st2

/-- A raw incoming payload as seen by `handle_incoming_message`: either it
fails schema validation (carrying an `id` key or not), or it validates into
an `IncomingMessage`. -/
inductive RawMessage
  | malformed (rawId : Option String)
  | valid (m : IncomingMessage)

/-- The reason attached to the ACK-NAK for unhandled messages. -/
def noHandlerReason : String :=
  "No handler managed to parse this message in the server"

/-- `MessageHub.handle_incoming_message`: validation failure produces a NAK
when the raw payload has an `id` (otherwise the message is dropped); an
`error` key short-circuits with handled = true; otherwise the message is fed
to the handlers and, when none of them handled it, an ACK-NAK with
`noHandlerReason` is sent back to the sender. -/
def handleIncomingMessage (builderFails : MsgBody → Bool)
    (tbl : HandlerTable Handler) (raw : RawMessage) (sender : Client)
    (st : PipelineState) : Except PyErr (Bool × PipelineState) :=
  match raw with
  | .malformed rawId =>
    match rawId with
    | some i =>
      let (ack, b2) :=
        createResponseTo st.builder
          ⟨i, [], false⟩
          { type := some "ACK-NAK"
            reason := some "Flockwave message does not match schema" }
      .ok (true, pipelinePush { st with builder := b2 } ⟨ack, some sender, none⟩)
    | none => .ok (false, st)
  | .valid m =>
    if m.hasError then .ok (true, st)
    else
      match feedHandlers builderFails m sender (handlersForType tbl m.msgType)
          false st with
      | .error e => .error e
      | .ok (handled, st2) =>
        if handled then .ok (true, st2)
        else
          let (ack, b2) :=
            acknowledge st2.builder m false (some noHandlerReason)
          .ok (false,
            pipelinePush { st2 with builder := b2 } ⟨ack, some sender, none⟩)

/-- A handler outcome that the pipeline interprets as "declined":
`False`, `None`, or an exception (synchronous or from the awaitable). -/
def declines (o : HandlerOutcome) : Prop :=
  o = .retFalse ∨ o = .retNone ∨ o = .raisesSync ∨ o = .raisesAsync

theorem feedHandlers_all_decline (bf : MsgBody → Bool) (m : IncomingMessage)
    (sender : Client) :
    ∀ (hs : List Handler) (handled : Bool) (st : PipelineState),
      (∀ h ∈ hs, declines (h m sender)) →
      feedHandlers bf m sender hs handled st = .ok (handled, st) := by
  intro hs
  induction hs with
  | nil => intro handled st _; rfl
  | cons h rest ih =>
    intro handled st hall
    have hh := hall h (by simp)
    have hrest : ∀ h2 ∈ rest, declines (h2 m sender) := fun h2 hm =>
      hall h2 (List.mem_cons_of_mem _ hm)
    rcases hh with h1 | h1 | h1 | h1 <;>
      simp [feedHandlers, h1, ih handled st hrest]

/-- C1: for every incoming message that validates and carries no `error`
key, if every handler in its iteration order declines (returns `False` or
`None`, or raises), `handle_incoming_message` pushes exactly one message
back to the sender: an ACK-NAK whose `correlationId` is the incoming
message's id and whose body carries the reason
"No handler managed to parse this message in the server". -/
theorem unhandled_message_gets_one_nak (bf : MsgBody → Bool)
    (tbl : HandlerTable Handler) (m : IncomingMessage) (sender : Client)
    (st : PipelineState)
    (hNoErr : m.hasError = false)
    (hAll : ∀ h ∈ handlersForType tbl m.msgType, declines (h m sender)) :
    ∃ ack : Envelope, ∃ b2 : MessageBuilder,
      handleIncomingMessage bf tbl (.valid m) sender st
        = .ok (false, ⟨b2, st.sent ++ [⟨ack, some sender, none⟩]⟩)
      ∧ ack.correlationId = some m.id
      ∧ ack.body.type = some "ACK-NAK"
      ∧ ack.body.reason = some noHandlerReason := by
  have hfeed := feedHandlers_all_decline bf m sender
    (handlersForType tbl m.msgType) false st hAll
  have hreason : reasonTruthy (some noHandlerReason) = true := rfl
  refine ⟨(acknowledge st.builder m false (some noHandlerReason)).1,
    (acknowledge st.builder m false (some noHandlerReason)).2, ?_, ?_, ?_, ?_⟩
  · simp [handleIncomingMessage, hNoErr, hfeed, pipelinePush]
  · simp [acknowledge, createResponseTo, MessageBuilder.freshId]
  · simp [acknowledge, createResponseTo, MessageBuilder.freshId]
  · simp [acknowledge, createResponseTo, MessageBuilder.freshId, hreason]

/-- The message of scenario S1. -/
def s1Message : IncomingMessage := ⟨"m1", [("type", "FOO-BAR")], false⟩

/-- Witness for C1: scenario S1 — no handler registered, message `m1` of
type `FOO-BAR`. -/
theorem unhandled_message_gets_one_nak_witness :
    ∃ ack : Envelope, ∃ b2 : MessageBuilder,
      handleIncomingMessage (fun _ => false) [] (.valid s1Message) "client-1"
          ⟨⟨0⟩, []⟩
        = .ok (false, ⟨b2, ([] : List QueuedRequest)
            ++ [⟨ack, some "client-1", none⟩]⟩)
      ∧ ack.correlationId = some s1Message.id
      ∧ ack.body.type = some "ACK-NAK"
      ∧ ack.body.reason = some noHandlerReason :=
  unhandled_message_gets_one_nak (fun _ => false) [] s1Message "client-1"
    ⟨⟨0⟩, []⟩ rfl
    (by intro h hm; simp [handlersForType, getHandlers, lookupTable] at hm)

/-- C3: a handler that raises (synchronously, or asynchronously while its
awaitable is awaited) is treated exactly as if it had declined: the
pipeline's result on any handler sequence containing it equals the result on
the sequence with that handler removed — in particular every subsequent
handler still runs, and the exception does not propagate. -/
theorem handler_exception_isolated (bf : MsgBody → Bool) (m : IncomingMessage)
    (sender : Client) (l1 l2 : List Handler) (h : Handler) (handled : Bool)
    (st : PipelineState)
    (hx : h m sender = .raisesSync ∨ h m sender = .raisesAsync) :
    feedHandlers bf m sender (l1 ++ h :: l2) handled st
      = feedHandlers bf m sender (l1 ++ l2) handled st := by
  induction l1 generalizing handled st with
  | nil => rcases hx with h1 | h1 <;> simp [feedHandlers, h1]
  | cons h0 l1 ih =>
    cases hout : h0 m sender with
    | retTrue => simpa [feedHandlers, hout] using ih true st
    | retFalse => simpa [feedHandlers, hout] using ih handled st
    | retNone => simpa [feedHandlers, hout] using ih handled st
    | raisesSync => simpa [feedHandlers, hout] using ih handled st
    | raisesAsync => simpa [feedHandlers, hout] using ih handled st
    | retBody body =>
      simp only [List.cons_append, feedHandlers, hout]
      cases sendResponse bf st (.inl body) sender m with
      | error e => rfl
      | ok st2 => exact ih true st2
    | retResponse resp =>
      simp only [List.cons_append, feedHandlers, hout]
      cases sendResponse bf st (.inr resp) sender m with
      | error e => rfl
      | ok st2 => exact ih true st2

/-- A handler that raises synchronously on every message. -/
def raisingHandler : Handler := fun _ _ => .raisesSync

/-- A handler that marks every message as handled. -/
def trueHandler : Handler := fun _ _ => .retTrue

/-- Witness for C3: a raising handler followed by a `True`-returning handler
behaves exactly like the `True`-returning handler alone. -/
theorem handler_exception_isolated_witness :
    feedHandlers (fun _ => false) s1Message "client-1"
        ([] ++ raisingHandler :: [trueHandler]) false ⟨⟨0⟩, []⟩
      = feedHandlers (fun _ => false) s1Message "client-1"
          ([] ++ [trueHandler]) false ⟨⟨0⟩, []⟩ :=
  handler_exception_isolated (fun _ => false) s1Message "client-1" []
    [trueHandler] raisingHandler false ⟨⟨0⟩, []⟩ (Or.inl rfl)

/-- A response body on which the message builder raises. -/
def failingBody : MsgBody := ⟨none, some "boom"⟩

/-- Builder-failure oracle for the C9 scenario: the builder raises exactly
on `failingBody`. -/
def c9BuilderFails : MsgBody → Bool := fun b => decide (b.reason = some "boom")

/-- A handler that returns `failingBody` as a dict response. -/
def c9Handler : Handler := fun _ _ => .retBody failingBody

/-- Handler table with `c9Handler` registered for `SYS-VER`. -/
def c9Table : HandlerTable Handler := [(some "SYS-VER", [c9Handler])]

/-- The incoming request of the C9 scenario. -/
def c9Message : IncomingMessage := ⟨"m9", [("type", "SYS-VER")], false⟩

/-- C9 (code behavior at the failing input): when a handler returns a body
on which the message builder raises, `_send_response` logs the failure but
then evaluates `await self.send_message(response, ...)` with `response`
never assigned, so the incoming pipeline aborts with `UnboundLocalError`
instead of skipping the enqueue and continuing. -/
theorem response_construction_failure_crashes_pipeline :
    handleIncomingMessage c9BuilderFails c9Table (.valid c9Message) "client-1"
        ⟨⟨0⟩, []⟩
      = .error .unboundLocalError := rfl

/-- The observable result of the handler installed by `MessageHub.iterate`:
it pushes the message into the internal channel and returns `True`, so every
matching message is reported as handled. -/
def iterateHandlerOutcome (_m : IncomingMessage) (_s : Client) :
    HandlerOutcome := .retTrue

/-- The consumer loop of `MessageHub.iterate`: each received
`(message, sender)` pair is turned into a `(body, sender, responder)`
triple only when `message.body` is truthy (non-empty); the responder
responds to the received message, so we record the message id with the
triple. -/
def iterateYields :
    List (IncomingMessage × Client) →
      List (List (String × String) × Client × String)
  | [] => []
  | (m, s) :: rest =>
    if m.body.isEmpty then iterateYields rest
    else (m.body, s, m.id) :: iterateYields rest

/-- C10: every message consumed by the iterate adapter is reported as
handled (the installed handler returns `True`), but the yielded triples are
exactly those of the messages with a non-empty body: an empty-body message
is consumed and never yielded. -/
theorem iterate_filters_empty_bodies (msgs : List (IncomingMessage × Client)) :
    (∀ p ∈ msgs, iterateHandlerOutcome p.1 p.2 = .retTrue)
    ∧ iterateYields msgs
        = (msgs.filter (fun p => !p.1.body.isEmpty)).map
            (fun p => (p.1.body, p.2, p.1.id)) := by
  constructor
  · intro p _; rfl
  · induction msgs with
    | nil => rfl
    | cons p rest ih =>
      obtain ⟨m, s⟩ := p
      by_cases h : m.body.isEmpty <;> simp [iterateYields, h, ih]

/-- Deliveries for the C10 witness: one empty-body message and one with a
non-empty body. -/
def iterateWitnessMsgs : List (IncomingMessage × Client) :=
  [(⟨"e1", [], false⟩, "s1"), (⟨"e2", [("type", "X")], false⟩, "s2")]

/-- Witness for C10 at a concrete delivery list. -/
theorem iterate_filters_empty_bodies_witness :
    iterateYields iterateWitnessMsgs
        = (iterateWitnessMsgs.filter (fun p => !p.1.body.isEmpty)).map
            (fun p => (p.1.body, p.2, p.1.id))
      ∧ iterateHandlerOutcome (⟨"e1", [], false⟩ : IncomingMessage) "s1"
          = .retTrue :=
  ⟨(iterate_filters_empty_bodies iterateWitnessMsgs).2,
    (iterate_filters_empty_bodies iterateWitnessMsgs).1
      (⟨"e1", [], false⟩, "s1") (by simp [iterateWitnessMsgs])⟩

/-! ## Broadcast plan cache (`_commit_broadcast_methods`,
`_invalidate_broadcast_methods`, `_broadcast_message`)

The client and channel-type registries are external collaborators; they are
modelled from the spec's interface description (section 6): the client
registry maps client ids to channel types and provides
`client_ids_for_channel_type` / `has_clients_for_channel_type`; the channel
type registry is an ordered collection of descriptors with an optional
native broadcaster. -/

/-- A channel type descriptor: its id and whether it declares a native
broadcaster. -/
structure ChannelTypeDesc where
  id : String
  hasBroadcaster : Bool
deriving DecidableEq, Repr

/-- One callable of the broadcast plan: either a channel type's native
broadcaster or a unicast send bound to one client. -/
inductive BroadcastTarget
  | viaBroadcaster (channelTypeId : String)
  | unicast (clientId : String)
deriving DecidableEq, Repr

/-- The hub state relevant to broadcasting: the two attached registries and
the cached broadcast plan (`None` = stale). -/
structure BroadcastState where
  channelTypes : List ChannelTypeDesc
  clients : List (String × String)
  broadcastMethods : Option (List BroadcastTarget)
deriving DecidableEq, Repr

/-- `client_ids_for_channel_type`. -/
def clientIdsForChannelType (s : BroadcastState) (ct : String) : List String :=
  (s.clients.filter (fun p => decide (p.2 = ct))).map (fun p => p.1)

/-- `has_clients_for_channel_type`. -/
def hasClientsForChannelType (s : BroadcastState) (ct : String) : Bool :=
  !(clientIdsForChannelType s ct).isEmpty

/-- `MessageHub._commit_broadcast_methods`: for each registered channel
type, the native broadcaster when one is declared and clients of that type
are connected, otherwise one unicast send per connected client of that
type. -/
def commitBroadcastMethods (s : BroadcastState) : List BroadcastTarget :=
  concatMap
    (fun d =>
      if d.hasBroadcaster then
        if hasClientsForChannelType s d.id then [.viaBroadcaster d.id] else []
      else (clientIdsForChannelType s d.id).map .unicast)
    s.channelTypes

/-- Events observed by the hub: registry changes (each of which triggers
`_invalidate_broadcast_methods` through the connected signals) and the
processing of one broadcast request. -/
inductive HubEvent
  | clientAdded (id ct : String)
  | clientRemoved (id : String)
  | channelTypeAdded (d : ChannelTypeDesc)
  | channelTypeRemoved (id : String)
  | broadcast
deriving DecidableEq, Repr

/-- The effect of one event on the broadcast state, together with the
targets a broadcast attempts (`_broadcast_message` rebuilds the plan when it
is stale and then walks it). -/
def applyEvent (s : BroadcastState) :
    HubEvent → BroadcastState × List BroadcastTarget
  | .clientAdded i ct =>
    ({ s with clients := s.clients ++ [(i, ct)], broadcastMethods := none }, [])
  | .clientRemoved i =>
    ({ s with clients := s.clients.filter (fun p => decide (p.1 ≠ i)), broadcastMethods := none }, [])
  | .channelTypeAdded d =>
    ({ s with channelTypes := s.channelTypes ++ [d], broadcastMethods := none }, [])
  | .channelTypeRemoved i =>
    ({ s with channelTypes := s.channelTypes.filter (fun d => decide (d.id ≠ i)), broadcastMethods := none }, [])
  | .broadcast =>
    let methods := s.broadcastMethods.getD (commitBroadcastMethods s)
    ({ s with broadcastMethods := some methods }, methods)

/-- Folding a sequence of events over the broadcast state. -/
def applyEvents (s : BroadcastState) : List HubEvent → BroadcastState
  | [] => s
  | e :: rest => applyEvents (applyEvent s e).1 rest

/-- The hub right after being wired to its registries: the plan cache starts
out empty (`self._broadcast_methods = None`). -/
def initialBroadcastState (cts : List ChannelTypeDesc)
    (cls : List (String × String)) : BroadcastState :=
  ⟨cts, cls, none⟩

/-- The plan cache is either stale or exactly the plan derived from the
current registry contents. -/
def planConsistent (s : BroadcastState) : Prop :=
  s.broadcastMethods = none
    ∨ s.broadcastMethods = some (commitBroadcastMethods s)

theorem commitBroadcastMethods_update (s : BroadcastState)
    (x : Option (List BroadcastTarget)) :
    commitBroadcastMethods { s with broadcastMethods := x }
      = commitBroadcastMethods s := by
  cases s; rfl

theorem planConsistent_applyEvent (s : BroadcastState) (e : HubEvent)
    (h : planConsistent s) : planConsistent (applyEvent s e).1 := by
  cases e with
  | clientAdded i ct => exact Or.inl rfl
  | clientRemoved i => exact Or.inl rfl
  | channelTypeAdded d => exact Or.inl rfl
  | channelTypeRemoved i => exact Or.inl rfl
  | broadcast =>
    right
    cases h with
    | inl h => simp [applyEvent, h, commitBroadcastMethods_update]
    | inr h => simp [applyEvent, h, commitBroadcastMethods_update]

theorem planConsistent_applyEvents (evs : List HubEvent) :
    ∀ s : BroadcastState, planConsistent s → planConsistent (applyEvents s evs) := by
  induction evs with
  | nil => intro s h; exact h
  | cons e rest ih =>
    intro s h
    exact ih _ (planConsistent_applyEvent s e h)

theorem mem_concatMap {α β : Type} (f : α → List β) (l : List α) (x : β) :
    x ∈ concatMap f l ↔ ∃ a ∈ l, x ∈ f a := by
  induction l with
  | nil => simp [concatMap]
  | cons a l ih => simp [concatMap, ih]

theorem unicast_mem_commit (s : BroadcastState) (c : String)
    (h : BroadcastTarget.unicast c ∈ commitBroadcastMethods s) :
    c ∈ s.clients.map (fun p => p.1) := by
  rw [commitBroadcastMethods, mem_concatMap] at h
  obtain ⟨d, _, hmem⟩ := h
  by_cases hb : d.hasBroadcaster = true
  · by_cases hc : hasClientsForChannelType s d.id = true <;>
      simp [hb, hc] at hmem
  · rw [Bool.not_eq_true] at hb
    rw [hb] at hmem
    simp only [Bool.false_eq_true, if_false] at hmem
    rw [List.mem_map] at hmem
    obtain ⟨a, ha, heq⟩ := hmem
    have hac : a = c := by
      cases heq
      rfl
    subst hac
    rw [clientIdsForChannelType, List.mem_map] at ha
    obtain ⟨p, hp, hpa⟩ := ha
    exact List.mem_map.mpr ⟨p, (List.mem_filter.mp hp).1, hpa⟩

/-- C6: every registry change marks the broadcast plan stale and the next
broadcast rebuilds it from the current registry contents only; consequently,
after any event sequence, a broadcast never attempts a unicast send to a
client that is not currently in the client registry — in particular not to
a removed client. -/
theorem broadcast_skips_removed_clients (cts : List ChannelTypeDesc)
    (cls : List (String × String)) (evs : List HubEvent) (c : String)
    (hc : c ∉ (applyEvents (initialBroadcastState cts cls) evs).clients.map
        (fun p => p.1)) :
    planConsistent (applyEvents (initialBroadcastState cts cls) evs)
    ∧ BroadcastTarget.unicast c
        ∉ (applyEvent (applyEvents (initialBroadcastState cts cls) evs)
            .broadcast).2 := by
  have hcons : planConsistent (applyEvents (initialBroadcastState cts cls) evs) :=
    planConsistent_applyEvents evs _ (Or.inl rfl)
  refine ⟨hcons, ?_⟩
  intro hmem
  set s := applyEvents (initialBroadcastState cts cls) evs with hs
  have htargets : (applyEvent s .broadcast).2 = commitBroadcastMethods s := by
    cases hcons with
    | inl h => simp [applyEvent, h]
    | inr h => simp [applyEvent, h]
  rw [htargets] at hmem
  exact hc (unicast_mem_commit s c hmem)

/-- Witness for C6: clients A and B on a broadcaster-less channel type;
after A is removed, a broadcast unicasts to B only. -/
theorem broadcast_skips_removed_clients_witness :
    planConsistent
        (applyEvents
          (initialBroadcastState [⟨"tcp", false⟩] [("A", "tcp"), ("B", "tcp")])
          [.clientRemoved "A"])
    ∧ BroadcastTarget.unicast "A"
        ∉ (applyEvent
            (applyEvents
              (initialBroadcastState [⟨"tcp", false⟩]
                [("A", "tcp"), ("B", "tcp")])
              [.clientRemoved "A"])
            .broadcast).2 :=
  broadcast_skips_removed_clients [⟨"tcp", false⟩] [("A", "tcp"), ("B", "tcp")]
    [.clientRemoved "A"] "A"
    (by simp [applyEvents, applyEvent, initialBroadcastState])

/-! ## Outbound queue (`open_memory_channel(4096)`, `enqueue_message`,
`send_message`, `enqueue_broadcast_message`, `broadcast_message`)

The trio memory channel is modelled as an explicit bounded FIFO list:
`send_nowait` raises `WouldBlock` when the buffer is full, `send` waits for
space exactly when the buffer is full and then appends its item. -/

/-- The queue capacity chosen in `MessageHub.__init__`:
`open_memory_channel(4096)`. -/
def queueCapacity : Nat := 4096

/-- The buffered contents of the outbound memory channel, oldest first. -/
abbrev OutboundQueue := List QueuedRequest

/-- `send_nowait`: appends when the buffer has room, raises `WouldBlock`
otherwise. -/
def sendNowait (q : OutboundQueue) (r : QueuedRequest) :
    Except PyErr OutboundQueue :=
  if q.length < queueCapacity then .ok (q ++ [r]) else .error .wouldBlock

/-- Result of an awaited `send`: the new buffer and whether the sender had
to wait for space before the item was accepted. -/
structure BlockingSend where
  queue : OutboundQueue
  hadToWait : Bool
deriving DecidableEq, Repr

/-- `await send`: waits exactly when the buffer is at capacity, then
appends. -/
def channelSend (q : OutboundQueue) (r : QueuedRequest) : BlockingSend :=
  ⟨q ++ [r], decide (queueCapacity ≤ q.length)⟩

/-- `receive`: takes the oldest buffered request. -/
def channelReceive (q : OutboundQueue) :
    Option (QueuedRequest × OutboundQueue) :=
  match q with
  | [] => none
  | r :: rest => some (r, rest)

/-- The wrapping step shared by `enqueue_message` and `send_message`: a raw
body is wrapped as a response when `in_response_to` is given, as a
notification otherwise; an envelope is passed through. -/
def wrapOutbound (b : MessageBuilder) (message : Sum MsgBody Envelope)
    (inResponseTo : Option IncomingMessage) : Envelope × MessageBuilder :=
  match message with
  | .inr env => (env, b)
  | .inl body => createResponseOrNotification b body inResponseTo

/-- `MessageHub.enqueue_broadcast_message`: asserts the message is a
notification and pushes it with `send_nowait`. -/
def enqueueBroadcastMessage (q : OutboundQueue) (message : Envelope) :
    Except PyErr OutboundQueue :=
  if message.kind = .notification then sendNowait q ⟨message, none, none⟩
  else .error .assertionError

/-- `MessageHub.broadcast_message`: asserts the message is a notification
and pushes it with an awaited `send`. -/
def broadcastMessageSend (q : OutboundQueue) (message : Envelope) :
    Except PyErr BlockingSend :=
  if message.kind = .notification then .ok (channelSend q ⟨message, none, none⟩)
  else .error .assertionError

/-- `MessageHub.enqueue_message`: wraps raw bodies, asserts that broadcasts
respond to nothing, and pushes with `send_nowait` (never waiting, failing
fast with `WouldBlock` when the queue is full). -/
def enqueueMessage (b : MessageBuilder) (q : OutboundQueue)
    (message : Sum MsgBody Envelope) (recipient : Option Client)
    (inResponseTo : Option IncomingMessage) :
    Except PyErr (MessageBuilder × OutboundQueue) :=
  let (msg, b2) := wrapOutbound b message inResponseTo
  match recipient with
  | none =>
    if inResponseTo.isSome then .error .assertionError
    else
      match enqueueBroadcastMessage q msg with
      | .error e => .error e
      | .ok q2 => .ok (b2, q2)
  | some c =>
    match sendNowait q ⟨msg, some c, inResponseTo.map (fun m => m.id)⟩ with
    | .error e => .error e
    | .ok q2 => .ok (b2, q2)

/-- `MessageHub.send_message`: same routing as `enqueue_message` but pushes
with an awaited `send`, waiting for space exactly when the queue is full. -/
def sendMessage (b : MessageBuilder) (q : OutboundQueue)
    (message : Sum MsgBody Envelope) (recipient : Option Client)
    (inResponseTo : Option IncomingMessage) :
    Except PyErr (MessageBuilder × BlockingSend) :=
  let (msg, b2) := wrapOutbound b message inResponseTo
  match recipient with
  | none =>
    if inResponseTo.isSome then .error .assertionError
    else
      match broadcastMessageSend q msg with
      | .error e => .error e
      | .ok res => .ok (b2, res)
  | some c =>
    .ok (b2, channelSend q ⟨msg, some c, inResponseTo.map (fun m => m.id)⟩)

theorem wrapOutbound_kind (b : MessageBuilder) (message : Sum MsgBody Envelope)
    (henv : ∀ env, message = .inr env → env.kind = .notification) :
    (wrapOutbound b message none).1.kind = .notification := by
  cases message with
  | inl body =>
    simp [wrapOutbound, createResponseOrNotification, createNotification,
      MessageBuilder.freshId]
  | inr env => exact henv env rfl

/-- C7: the outbound queue is a bounded FIFO of capacity 4096;
`enqueue_message` never waits and fails fast with `WouldBlock` exactly when
the queue is at capacity (appending one request otherwise), while
`send_message` always succeeds, waiting for space exactly when the queue is
at capacity, and `receive` dequeues the oldest request first. -/
theorem outbound_queue_backpressure (b : MessageBuilder) (q : OutboundQueue)
    (message : Sum MsgBody Envelope) (recipient : Option Client)
    (inResponseTo : Option IncomingMessage)
    (hassert : recipient = none →
      inResponseTo = none
      ∧ ∀ env, message = .inr env → env.kind = .notification) :
    queueCapacity = 4096
    ∧ (enqueueMessage b q message recipient inResponseTo
        = .error .wouldBlock ↔ queueCapacity ≤ q.length)
    ∧ (∀ b2 q2,
        enqueueMessage b q message recipient inResponseTo = .ok (b2, q2) →
        ∃ r, q2 = q ++ [r])
    ∧ (∃ b2 res,
        sendMessage b q message recipient inResponseTo = .ok (b2, res)
        ∧ (res.hadToWait = true ↔ queueCapacity ≤ q.length)
        ∧ ∃ r, res.queue = q ++ [r])
    ∧ (∀ r rest, channelReceive (r :: rest) = some (r, rest)) := by
  refine ⟨rfl, ?_⟩
  cases recipient with
  | none =>
    obtain ⟨hirt, henv⟩ := hassert rfl
    subst hirt
    have hkind : (wrapOutbound b message none).1.kind = .notification :=
      wrapOutbound_kind b message henv
    by_cases hlen : q.length < queueCapacity
    · refine ⟨?_, ?_, ?_, ?_⟩
      · simp [enqueueMessage, enqueueBroadcastMessage, hkind, sendNowait,
          hlen]
      · intro b2 q2 h
        simp [enqueueMessage, enqueueBroadcastMessage, hkind, sendNowait,
          hlen] at h
        exact ⟨_, h.2.symm⟩
      · refine ⟨(wrapOutbound b message none).2,
          channelSend q ⟨(wrapOutbound b message none).1, none, none⟩, ?_, ?_, ?_⟩
        · simp [sendMessage, broadcastMessageSend, hkind]
        · simp [channelSend]
        · exact ⟨_, rfl⟩
      · intro r rest; rfl
    · refine ⟨?_, ?_, ?_, ?_⟩
      · simp [enqueueMessage, enqueueBroadcastMessage, hkind, sendNowait,
          hlen]
        omega
      · intro b2 q2 h
        simp [enqueueMessage, enqueueBroadcastMessage, hkind, sendNowait,
          hlen] at h
      · refine ⟨(wrapOutbound b message none).2,
          channelSend q ⟨(wrapOutbound b message none).1, none, none⟩, ?_, ?_, ?_⟩
        · simp [sendMessage, broadcastMessageSend, hkind]
        · simp [channelSend]
        · exact ⟨_, rfl⟩
      · intro r rest; rfl
  | some c =>
    by_cases hlen : q.length < queueCapacity
    · refine ⟨?_, ?_, ?_, ?_⟩
      · simp [enqueueMessage, sendNowait, hlen]
      · intro b2 q2 h
        simp [enqueueMessage, sendNowait, hlen] at h
        exact ⟨_, h.2.symm⟩
      · refine ⟨(wrapOutbound b message inResponseTo).2,
          channelSend q ⟨(wrapOutbound b message inResponseTo).1, some c,
            inResponseTo.map (fun m => m.id)⟩, ?_, ?_, ?_⟩
        · simp [sendMessage]
        · simp [channelSend]
        · exact ⟨_, rfl⟩
      · intro r rest; rfl
    · refine ⟨?_, ?_, ?_, ?_⟩
      · simp [enqueueMessage, sendNowait, hlen]
        omega
      · intro b2 q2 h
        simp [enqueueMessage, sendNowait, hlen] at h
      · refine ⟨(wrapOutbound b message inResponseTo).2,
          channelSend q ⟨(wrapOutbound b message inResponseTo).1, some c,
            inResponseTo.map (fun m => m.id)⟩, ?_, ?_, ?_⟩
        · simp [sendMessage]
        · simp [channelSend]
        · exact ⟨_, rfl⟩
      · intro r rest; rfl

/-- Witness for C7: unicast enqueue and send of a raw body on an empty
queue. -/
theorem outbound_queue_backpressure_witness :
    queueCapacity = 4096
    ∧ (enqueueMessage ⟨0⟩ [] (.inl ⟨some "X", none⟩) (some "c") none
        = .error .wouldBlock ↔ queueCapacity ≤ List.length ([] : OutboundQueue))
    ∧ (∀ b2 q2,
        enqueueMessage ⟨0⟩ [] (.inl ⟨some "X", none⟩) (some "c") none
          = .ok (b2, q2) → ∃ r, q2 = [] ++ [r])
    ∧ (∃ b2 res,
        sendMessage ⟨0⟩ [] (.inl ⟨some "X", none⟩) (some "c") none
          = .ok (b2, res)
        ∧ (res.hadToWait = true ↔ queueCapacity ≤ List.length ([] : OutboundQueue))
        ∧ ∃ r, res.queue = [] ++ [r])
    ∧ (∀ r rest, channelReceive (r :: rest) = some (r, rest)) :=
  outbound_queue_backpressure ⟨0⟩ [] (.inl ⟨some "X", none⟩) (some "c") none
    (fun h => nomatch h)

/-! ## Connection-state rate limiter (`ConnectionStatusMessageRateLimiter`)

`ConnectionState` comes from `flockwave.connections` (outside the provided
sources) and is modelled from the spec's glossary: stable states are
`connected`/`disconnected`, transitioning states are
`connecting`/`disconnecting`.  The `run` loop, its per-connection `Entry`
bookkeeping and the dispatcher task are translated from the source; the
dispatcher's entry removal (`data.pop`) is modelled as atomic with the
emission, and the waiter's 0.1 s timer is modelled as an explicit
`timerElapsed` event. -/

/-- Connection lifecycle states. -/
inductive ConnectionState
  | connected
  | disconnected
  | connecting
  | disconnecting
deriving DecidableEq, Repr

/-- `ConnectionState.is_transitioning`. -/
def ConnectionState.is_transitioning : ConnectionState → Bool
  | .connecting => true
  | .disconnecting => true
  | _ => false

/-- `ConnectionStatusMessageRateLimiter.Entry`: the stable state the
connection had before the transition started, and whether the `settled`
event has fired. -/
structure CSLEntry where
  last_stable_state : ConnectionState
  settled : Bool
deriving DecidableEq, Repr

/-- The `data` dict of the `run` loop. -/
abbrev CSLData := List (String × CSLEntry)

/-- Association-list lookup (`dict.get`). -/
def alookup {β : Type} : List (String × β) → String → Option β
  | [], _ => none
  | (k, v) :: rest, key => if k = key then some v else alookup rest key

/-- Association-list insert of a fresh key (`data[connection_id] = entry`). -/
def ainsert {β : Type} (l : List (String × β)) (key : String) (v : β) :
    List (String × β) :=
  l ++ [(key, v)]

/-- `entry.notify_settled()`: sets the settled flag of the entry stored for
the key. -/
def setSettled : CSLData → String → CSLData
  | [], _ => []
  | (k, e) :: rest, key =>
    if k = key then (k, { e with settled := true }) :: rest
    else (k, e) :: setSettled rest key

/-- `data.pop(connection_id, None)`. -/
def aerase {β : Type} : List (String × β) → String → List (String × β)
  | [], _ => []
  | (k, v) :: rest, key =>
    if k = key then rest else (k, v) :: aerase rest key

/-- Events processed by the limiter: an `add_request` arriving at the `run`
loop, or the expiry of a pending waiter's 0.1 s timer. -/
inductive CSLEvent
  | request (connectionId : String) (oldState newState : ConnectionState)
  | timerElapsed (connectionId : String)
deriving DecidableEq, Repr

/-- One dispatched CONN-INF message: the connection it is about, whether it
was produced by the waiter's timeout, and (for request-triggered emissions)
the `new_state` of the triggering request. -/
structure CSLEmission where
  connectionId : String
  fromTimeout : Bool
  newState : Option ConnectionState
deriving DecidableEq, Repr

/-- One step of the `run` loop (for `request` events) or of a pending
waiter (`wait_to_see_if_settles`, for `timerElapsed` events).  The
dispatcher task removes the entry and emits; a timer expiry on a settled
entry does nothing (and a stale settled entry stays in `data`, exactly as
in the source, where entries are only removed by the dispatcher). -/
def cslStep (data : CSLData) : CSLEvent → CSLData × List CSLEmission
  | .request c oldState newState =>
    if newState.is_transitioning then
      if oldState.is_transitioning then
        (aerase data c, [⟨c, false, some newState⟩])
      else
        match alookup data c with
        | some _ => (data, [])
        | none => (ainsert data c ⟨oldState, false⟩, [])
    else
      match alookup data c with
      | some e =>
        if e.last_stable_state = newState then (setSettled data c, [])
        else (aerase (setSettled data c) c, [⟨c, false, some newState⟩])
      | none => (data, [⟨c, false, some newState⟩])
  | .timerElapsed c =>
    match alookup data c with
    | some e =>
      if e.settled then (data, [])
      else (aerase data c, [⟨c, true, none⟩])
    | none => (data, [])

/-- All emissions produced while processing an event sequence. -/
def cslRunEmissions (data : CSLData) : List CSLEvent → List CSLEmission
  | [] => []
  | e :: rest =>
    (cslStep data e).2 ++ cslRunEmissions (cslStep data e).1 rest

/-- Claim-side checker for C4 as stated: along the run, every emission
triggered by a stable-state request must differ from the stable state most
recently reported for that connection by an earlier request. -/
def claimC4go (data : CSLData) (obs : List (String × ConnectionState)) :
    List CSLEvent → Bool
  | [] => true
  | e :: rest =>
    let step := cslStep data e
    let ok :=
      match e with
      | .request c _ newState =>
        if !newState.is_transitioning && !step.2.isEmpty then
          match alookup obs c with
          | some s => decide (s ≠ newState)
          | none => true
        else true
      | .timerElapsed _ => true
    let obs2 :=
      match e with
      | .request c _ newState =>
        if !newState.is_transitioning then ainsert (aerase obs c) c newState
        else obs
      | .timerElapsed _ => obs
    ok && claimC4go step.1 obs2 rest

/-- C4 as stated, evaluated from the limiter's initial empty state. -/
def claimC4Holds (events : List CSLEvent) : Bool := claimC4go [] [] events

/-- The two-request trace refuting C4: a connection reports the same stable
state twice with no pending wait entry. -/
def c4CounterTrace : List CSLEvent :=
  [.request "c1" .disconnected .connected,
   .request "c1" .connected .connected]

/-- C4 counterexample: with no pending wait entry, a stable-state request is
always dispatched, even when the new stable state equals the previously
observed stable state — the code emits two CONN-INF messages for
`disconnected → connected` followed by `connected → connected`, refuting the
claim that such an emission never happens. -/
theorem connection_limiter_repeats_stable_state :
    claimC4Holds c4CounterTrace = false := rfl

theorem alookup_ainsert_none {β : Type} (data : List (String × β)) (c : String)
    (v : β) (h : alookup data c = none) :
    alookup (ainsert data c v) c = some v := by
  induction data with
  | nil => simp [ainsert, alookup]
  | cons p rest ih =>
    obtain ⟨k, w⟩ := p
    by_cases hk : k = c
    · simp [alookup, hk] at h
    · simp [alookup, hk] at h
      simp [ainsert, alookup, hk] at ih ⊢
      exact ih h

theorem setSettled_ainsert_none (data : CSLData) (c : String) (e : CSLEntry)
    (h : alookup data c = none) :
    setSettled (ainsert data c e) c
      = ainsert data c { e with settled := true } := by
  induction data with
  | nil => simp [ainsert, setSettled]
  | cons p rest ih =>
    obtain ⟨k, w⟩ := p
    by_cases hk : k = c
    · simp [alookup, hk] at h
    · simp [alookup, hk] at h
      simp [ainsert, setSettled, hk] at ih ⊢
      exact ih h

/-- C4 (amended): the connection-state limiter suppresses a stable-state
report exactly through its pending wait entries: a stable request whose new
state equals the `last_stable_state` of the connection's pending entry emits
nothing, and a transition from a stable state that settles back to the same
stable state before the wait timer fires (scenario S6) produces zero
emissions, including at the subsequent timer expiry.  (Without a pending
entry, a stable-state request always dispatches — see the
counterexample.) -/
theorem connection_limiter_suppression :
    (∀ (data : CSLData) (c : String) (oldState st : ConnectionState)
        (e : CSLEntry),
      st.is_transitioning = false → alookup data c = some e →
      e.last_stable_state = st →
      (cslStep data (.request c oldState st)).2 = [])
    ∧ (∀ (data : CSLData) (c : String) (s t t2 : ConnectionState),
        alookup data c = none → s.is_transitioning = false →
        t.is_transitioning = true →
        cslRunEmissions data
          [.request c s t, .request c t2 s, .timerElapsed c] = []) := by
  constructor
  · intro data c oldState st e hst hlk hlast
    simp [cslStep, hst, hlk, hlast]
  · intro data c s t t2 hnone hs ht
    have h1 : cslStep data (.request c s t)
        = (ainsert data c ⟨s, false⟩, []) := by
      simp [cslStep, ht, hs, hnone]
    have hlk1 : alookup (ainsert data c (⟨s, false⟩ : CSLEntry)) c
        = some ⟨s, false⟩ := alookup_ainsert_none data c _ hnone
    have h2 : cslStep (ainsert data c ⟨s, false⟩) (.request c t2 s)
        = (setSettled (ainsert data c ⟨s, false⟩) c, []) := by
      simp [cslStep, hs, hlk1]
    have hset : setSettled (ainsert data c (⟨s, false⟩ : CSLEntry)) c
        = ainsert data c ⟨s, true⟩ := setSettled_ainsert_none data c _ hnone
    have hlk2 : alookup (ainsert data c (⟨s, true⟩ : CSLEntry)) c
        = some ⟨s, true⟩ := alookup_ainsert_none data c _ hnone
    have h3 : cslStep (ainsert data c ⟨s, true⟩) (.timerElapsed c)
        = (ainsert data c ⟨s, true⟩, []) := by
      simp [cslStep, hlk2]
    simp [cslRunEmissions, h1, h2, hset, h3]

/-- Witness for C4 (amended): suppression with a concrete pending entry, and
scenario S6 (`disconnected → connecting`, settling back to `disconnected`)
from the empty limiter state. -/
theorem connection_limiter_suppression_witness :
    (cslStep [("c1", ⟨.disconnected, false⟩)]
        (.request "c1" .connecting .disconnected)).2 = []
    ∧ cslRunEmissions []
        [.request "c1" .disconnected .connecting,
         .request "c1" .connecting .disconnected,
         .timerElapsed "c1"] = [] :=
  ⟨connection_limiter_suppression.1 [("c1", ⟨.disconnected, false⟩)] "c1"
      .connecting .disconnected ⟨.disconnected, false⟩ rfl rfl rfl,
    connection_limiter_suppression.2 [] "c1" .disconnected .connecting
      .connecting rfl rfl rfl⟩

/-! ## Generic batching rate limiter (`GenericRateLimiter`)

Modelled from the spec: `AsyncBundler` (from `flockwave.server.concurrency`)
is not among the provided sources; section 4.8 of the spec describes the
composed behavior of `GenericRateLimiter.run` over it: `add_request` unions
ids into a pending set; the first non-empty pending set is emitted
immediately; after each emission the limiter sleeps the minimum delay `d`,
during which further ids accumulate; when the sleep ends the pending set is
emitted if non-empty, otherwise the limiter blocks until it becomes
non-empty; the emitted batch is exactly the accumulated set, cleared
atomically with the emission.  Time is discrete (milliseconds) and dispatch
is instantaneous. -/

/-- One `add_request(ids)` call, tagged with its arrival time. -/
structure AddEvent where
  time : Nat
  ids : List String
deriving DecidableEq, Repr

/-- The union of the id sets of a list of add events. -/
def bundleOf (evs : List AddEvent) : Finset String :=
  evs.foldr (fun e s => e.ids.toFinset ∪ s) ∅

/-- All ids added no later than `t`. -/
def idsUpTo (evs : List AddEvent) (t : Nat) : Finset String :=
  bundleOf (evs.filter (fun e => decide (e.time ≤ t)))

/-- All ids added in the half-open window `(a, b]`. -/
def idsBetween (evs : List AddEvent) (a b : Nat) : Finset String :=
  bundleOf (evs.filter (fun e => decide (a < e.time ∧ e.time ≤ b)))

/-- Minimum of a list of naturals. -/
def listMinNat : List Nat → Option Nat
  | [] => none
  | x :: xs =>
    match listMinNat xs with
    | none => some x
    | some m => some (min x m)

/-- The time of the next emission when the loop becomes ready at time `τ`:
the earliest moment ≥ τ at which the pending set is non-empty, i.e. the
minimum over the remaining non-empty add events of `max τ (arrival time)`. -/
def nextEmitTime (τ : Nat) (evs : List AddEvent) : Option Nat :=
  listMinNat
    ((evs.filter (fun e => !e.ids.isEmpty)).map (fun e => max τ e.time))

/-- The emission loop of `GenericRateLimiter.run` with fuel: at each
iteration the next batch is emitted at `nextEmitTime`, containing every id
added up to that moment; the consumed events are dropped and the loop
becomes ready again after the minimum delay `d`. -/
def runGRLAux (d : Nat) : Nat → Nat → List AddEvent → List (Nat × Finset String)
  | 0, _, _ => []
  | fuel + 1, τ, evs =>
    match nextEmitTime τ evs with
    | none => []
    | some T =>
      (T, idsUpTo evs T)
        :: runGRLAux d fuel (T + d) (evs.filter (fun e => decide (T < e.time)))

/-- The emissions of `GenericRateLimiter.run` with minimum delay `d` on a
timed sequence of `add_request` calls, starting idle at time 0. -/
def runGenericRateLimiter (d : Nat) (evs : List AddEvent) :
    List (Nat × Finset String) :=
  runGRLAux d (evs.length + 1) 0 evs

/-- The time at which the pending set first becomes non-empty. -/
def firstNonemptyAddTime (evs : List AddEvent) : Option Nat :=
  listMinNat ((evs.filter (fun e => !e.ids.isEmpty)).map (fun e => e.time))

theorem listMinNat_mem : ∀ (l : List Nat) (m : Nat),
    listMinNat l = some m → m ∈ l := by
  intro l
  induction l with
  | nil => intro m h; cases h
  | cons x xs ih =>
    intro m h
    cases hxs : listMinNat xs with
    | none =>
      rw [listMinNat, hxs] at h
      cases h
      exact List.mem_cons_self x xs
    | some m2 =>
      rw [listMinNat, hxs] at h
      cases h
      rcases min_choice x m2 with hmin | hmin
      · rw [hmin]; exact List.mem_cons_self x xs
      · rw [hmin]; exact List.mem_cons_of_mem x (ih m2 hxs)

theorem nextEmitTime_lb (τ : Nat) (evs : List AddEvent) (T : Nat)
    (h : nextEmitTime τ evs = some T) : τ ≤ T := by
  have hmem := listMinNat_mem _ _ h
  rw [List.mem_map] at hmem
  obtain ⟨e, _, he⟩ := hmem
  rw [← he]
  exact le_max_left τ e.time

theorem runGRLAux_time_lb (d : Nat) :
    ∀ (fuel τ : Nat) (evs : List AddEvent) (p : Nat × Finset String),
      p ∈ runGRLAux d fuel τ evs → τ ≤ p.1 := by
  intro fuel
  induction fuel with
  | zero => intro τ evs p hp; simp [runGRLAux] at hp
  | succ fuel ih =>
    intro τ evs p hp
    simp only [runGRLAux] at hp
    cases hT : nextEmitTime τ evs with
    | none => rw [hT] at hp; cases hp
    | some T =>
      rw [hT] at hp
      have hτT : τ ≤ T := nextEmitTime_lb τ evs T hT
      rcases List.mem_cons.mp hp with h | h
      · rw [h]; exact hτT
      · have := ih (T + d) _ p h
        omega

theorem zip_tail_fst_mem {β : Type} :
    ∀ (l : List β) (pq : β × β), pq ∈ l.zip l.tail → pq.1 ∈ l := by
  intro l
  induction l with
  | nil => intro pq h; cases h
  | cons a t ih =>
    intro pq h
    cases t with
    | nil => simp at h
    | cons b t2 =>
      rcases List.mem_cons.mp h with h1 | h1
      · rw [h1]; exact List.mem_cons_self _ _
      · exact List.mem_cons_of_mem a (ih pq h1)

theorem bundle_filter_filter (p q : AddEvent → Bool) (evs : List AddEvent) :
    bundleOf ((evs.filter p).filter q)
      = bundleOf (evs.filter (fun e => p e && q e)) := by
  rw [List.filter_filter]
  congr 1
  apply List.filter_congr
  intro e _
  cases p e <;> cases q e <;> rfl

theorem idsUpTo_filter (evs : List AddEvent) (T b : Nat) :
    idsUpTo (evs.filter (fun e => decide (T < e.time))) b
      = idsBetween evs T b := by
  rw [idsUpTo, idsBetween, bundle_filter_filter]
  congr 1
  apply List.filter_congr
  intro e _
  by_cases h1 : T < e.time <;> by_cases h2 : e.time ≤ b <;>
    simp [h1, h2]

theorem idsBetween_filter (evs : List AddEvent) (T a b : Nat) (hTa : T ≤ a) :
    idsBetween (evs.filter (fun e => decide (T < e.time))) a b
      = idsBetween evs a b := by
  rw [idsBetween, idsBetween, bundle_filter_filter]
  congr 1
  apply List.filter_congr
  intro e _
  by_cases h : a < e.time ∧ e.time ≤ b
  · have : T < e.time := lt_of_le_of_lt hTa h.1
    simp [h, this]
  · simp [h]

theorem runGRLAux_adjacent (d : Nat) :
    ∀ (fuel τ : Nat) (evs : List AddEvent)
      (pq : (Nat × Finset String) × (Nat × Finset String)),
      pq ∈ (runGRLAux d fuel τ evs).zip (runGRLAux d fuel τ evs).tail →
      pq.1.1 + d ≤ pq.2.1 ∧ pq.2.2 = idsBetween evs pq.1.1 pq.2.1 := by
  intro fuel
  induction fuel with
  | zero => intro τ evs pq h; simp [runGRLAux] at h
  | succ fuel ih =>
    intro τ evs pq hpq
    cases hT : nextEmitTime τ evs with
    | none =>
      have hrun : runGRLAux d (fuel + 1) τ evs = [] := by
        simp [runGRLAux, hT]
      rw [hrun] at hpq
      cases hpq
    | some T =>
      have hrun : runGRLAux d (fuel + 1) τ evs
          = (T, idsUpTo evs T)
            :: runGRLAux d fuel (T + d)
                (evs.filter (fun e => decide (T < e.time))) := by
        simp [runGRLAux, hT]
      rw [hrun] at hpq
      cases hrest : runGRLAux d fuel (T + d)
          (evs.filter (fun e => decide (T < e.time))) with
      | nil => rw [hrest] at hpq; simp at hpq
      | cons q rest2 =>
        rw [hrest] at hpq
        have hqmem : q ∈ runGRLAux d fuel (T + d)
            (evs.filter (fun e => decide (T < e.time))) := by
          rw [hrest]; exact List.mem_cons_self _ _
        have hqlb : T + d ≤ q.1 := runGRLAux_time_lb d fuel (T + d) _ q hqmem
        have hzip : ((T, idsUpTo evs T) :: q :: rest2).zip (q :: rest2)
            = ((T, idsUpTo evs T), q) :: (q :: rest2).zip rest2 := rfl
        rw [List.tail_cons, hzip] at hpq
        rcases List.mem_cons.mp hpq with h1 | h1
        · subst h1
          refine ⟨hqlb, ?_⟩
          cases fuel with
          | zero => rw [runGRLAux] at hrest; cases hrest
          | succ fuel2 =>
            cases hT2 : nextEmitTime (T + d)
                (evs.filter (fun e => decide (T < e.time))) with
            | none =>
              have hnil : runGRLAux d (fuel2 + 1) (T + d)
                  (evs.filter (fun e => decide (T < e.time))) = [] := by
                simp [runGRLAux, hT2]
              rw [hnil] at hrest; cases hrest
            | some T2 =>
              have hrest2 : runGRLAux d (fuel2 + 1) (T + d)
                  (evs.filter (fun e => decide (T < e.time)))
                  = (T2, idsUpTo (evs.filter (fun e => decide (T < e.time))) T2)
                    :: runGRLAux d fuel2 (T2 + d)
                        ((evs.filter (fun e => decide (T < e.time))).filter
                          (fun e => decide (T2 < e.time))) := by
                simp [runGRLAux, hT2]
              rw [hrest2] at hrest
              have hq := (List.cons_eq_cons.mp hrest).1
              rw [← hq]
              simpa using (idsUpTo_filter evs T T2)
        · have h1x : pq ∈ (runGRLAux d fuel (T + d)
              (evs.filter (fun e => decide (T < e.time)))).zip
              ((runGRLAux d fuel (T + d)
                (evs.filter (fun e => decide (T < e.time)))).tail) := by
            rw [hrest, List.tail_cons]
            exact h1
          have hih := ih (T + d) (evs.filter (fun e => decide (T < e.time))) pq h1x
          refine ⟨hih.1, ?_⟩
          have hfst := zip_tail_fst_mem _ pq h1x
          have hlb : T + d ≤ pq.1.1 :=
            runGRLAux_time_lb d fuel (T + d) _ pq.1 hfst
          rw [hih.2]
          exact idsBetween_filter evs T pq.1.1 pq.2.1 (by omega)

theorem nextEmitTime_zero (evs : List AddEvent) :
    nextEmitTime 0 evs = firstNonemptyAddTime evs := by
  rw [nextEmitTime, firstNonemptyAddTime]
  congr 1
  apply List.map_congr_left
  intro e _
  exact Nat.zero_max e.time

/-- C5: on any timed sequence of `add_request` calls, consecutive emissions
of the generic batching limiter are separated by at least the minimum delay
`d` and each later batch is exactly the union of the ids added in the
half-open window since the previous emission; moreover the first batch is
emitted at the very moment the pending set first becomes non-empty (no
initial delay) and contains exactly the ids added up to that moment. -/
theorem generic_limiter_batching (d : Nat) (evs : List AddEvent) :
    (∀ pq ∈ (runGenericRateLimiter d evs).zip
        (runGenericRateLimiter d evs).tail,
      pq.1.1 + d ≤ pq.2.1 ∧ pq.2.2 = idsBetween evs pq.1.1 pq.2.1)
    ∧ (∀ t0, firstNonemptyAddTime evs = some t0 →
        ∃ tail, runGenericRateLimiter d evs
          = (t0, idsUpTo evs t0) :: tail) := by
  constructor
  · intro pq hpq
    exact runGRLAux_adjacent d (evs.length + 1) 0 evs pq hpq
  · intro t0 h0
    have hT : nextEmitTime 0 evs = some t0 := by
      rw [nextEmitTime_zero]; exact h0
    refine ⟨runGRLAux d evs.length (t0 + d)
        (evs.filter (fun e => decide (t0 < e.time))), ?_⟩
    rw [runGenericRateLimiter]
    simp [runGRLAux, hT]

/-- The add events of scenario S5 (times in milliseconds). -/
def s5Events : List AddEvent :=
  [⟨0, ["u1"]⟩, ⟨20, ["u2", "u3"]⟩, ⟨150, ["u2"]⟩]

/-- Witness for C5 at scenario S5 with `d` = 100 ms: the pair of emissions
at `t` = 100 and `t` = 200 is spaced by `d` and the later batch is exactly
the ids added in `(100, 200]`; the first batch fires at `t` = 0. -/
theorem generic_limiter_batching_witness :
    ((100 : Nat) + 100 ≤ 200
      ∧ ({"u2"} : Finset String) = idsBetween s5Events 100 200)
    ∧ ∃ tail, runGenericRateLimiter 100 s5Events
        = (0, idsUpTo s5Events 0) :: tail :=
  ⟨(generic_limiter_batching 100 s5Events).1
      ((100, ({"u2", "u3"} : Finset String)), (200, ({"u2"} : Finset String)))
      (by decide),
    (generic_limiter_batching 100 s5Events).2 0 (by decide)⟩
